import Mathlib

/-!
Shallow embedding of the `bevy_entity_system` crate (data_match.rs,
implementors.rs, into_entity_system.rs, into_system.rs, lib.rs) together
with the interface of the external record store (`bevy_ecs` queries and
access declarations) restricted to the query shapes the crate uses.

Component types are identified by natural numbers (bevy `ComponentId`).
-/

/-- Model of bevy `FilteredAccess<ComponentId>`: the read and write claims of
an access declaration plus the conjunctive `With`/`Without` filter facts.
Lists keep insertion order; only one conjunctive filter set is modelled,
matching every query shape this crate constructs (no `Or` filters). -/
structure FilteredAccess where
  reads : List Nat
  writes : List Nat
  withs : List Nat
  withouts : List Nat
deriving Repr, DecidableEq

/-- Model of `FilteredAccess::default()`: the empty declaration. -/
def FilteredAccess.empty : FilteredAccess := ⟨[], [], [], []⟩

/-- Model of `FilteredAccess::add_read`: bevy records the read claim and also
a `With` fact, since reading a component requires its presence. -/
def FilteredAccess.add_read (a : FilteredAccess) (c : Nat) : FilteredAccess :=
  { a with reads := a.reads ++ [c], withs := a.withs ++ [c] }

/-- Model of `FilteredAccess::add_write`: the write claim plus a `With` fact. -/
def FilteredAccess.add_write (a : FilteredAccess) (c : Nat) : FilteredAccess :=
  { a with writes := a.writes ++ [c], withs := a.withs ++ [c] }

/-- Model of `FilteredAccess::and_with`: adds a presence fact only. -/
def FilteredAccess.and_with (a : FilteredAccess) (c : Nat) : FilteredAccess :=
  { a with withs := a.withs ++ [c] }

/-- Model of `FilteredAccess::and_without`: adds an absence fact only. -/
def FilteredAccess.and_without (a : FilteredAccess) (c : Nat) : FilteredAccess :=
  { a with withouts := a.withouts ++ [c] }

/-- Modelled from the spec: the `bevy_ecs::query::QueryData` shapes used by
this crate (the record store is external to the repository). `entity` is
`Entity`, `read c` is `&C`, `write c` is `&mut C`, `pair` is a tuple. -/
inductive QueryData where
  | entity : QueryData
  | read (c : Nat) : QueryData
  | write (c : Nat) : QueryData
  | pair (l r : QueryData) : QueryData
deriving Repr, DecidableEq

/-- Modelled from the spec: `QueryData::update_component_access` for the
shapes above. `Entity` adds nothing; `&C` adds a read claim (and its
presence fact); `&mut C` adds a write claim; tuples add left then right. -/
def QueryData.update_component_access : QueryData → FilteredAccess → FilteredAccess
  | .entity, a => a
  | .read c, a => a.add_read c
  | .write c, a => a.add_write c
  | .pair l r, a => r.update_component_access (l.update_component_access a)

/-- Modelled from the spec: `QueryData::matches_component_set` — whether an
entity owning exactly the component set `has` can be fetched by the data. -/
def QueryData.matches_component_set : QueryData → (Nat → Bool) → Bool
  | .entity, _ => true
  | .read c, has => has c
  | .write c, has => has c
  | .pair l r, has => l.matches_component_set has && r.matches_component_set has

/-- Component types the data claims read access on, in declaration order. -/
def QueryData.readsList : QueryData → List Nat
  | .entity => []
  | .read c => [c]
  | .write _ => []
  | .pair l r => l.readsList ++ r.readsList

/-- Component types the data claims write access on, in declaration order. -/
def QueryData.writesList : QueryData → List Nat
  | .entity => []
  | .read _ => []
  | .write c => [c]
  | .pair l r => l.writesList ++ r.writesList

/-- Presence facts the data itself declares, in declaration order. -/
def QueryData.withsList : QueryData → List Nat
  | .entity => []
  | .read c => [c]
  | .write c => [c]
  | .pair l r => l.withsList ++ r.withsList

/-- Model of the `bevy_ecs::query::QueryFilter` shapes used by this crate:
`unit` is `()`, `withC c` is `With<C>`, `withoutC c` is `Without<C>`,
`dataMatch d` is this crate's `DataMatch<D>` from data_match.rs, and
`pair` is a tuple of filters. -/
inductive QueryFilter where
  | unit : QueryFilter
  | withC (c : Nat) : QueryFilter
  | withoutC (c : Nat) : QueryFilter
  | dataMatch (d : QueryData) : QueryFilter
  | pair (l r : QueryFilter) : QueryFilter
deriving Repr, DecidableEq

/-- Model of `QueryFilter::update_component_access`. The `dataMatch` case is
`DataMatch::update_component_access` from data_match.rs: compute the wrapped
data's access into a fresh default declaration, then copy only its `With`
facts (via `and_with`) and its `Without` facts (via `and_without`) into the
target access, in that order. -/
def QueryFilter.update_component_access : QueryFilter → FilteredAccess → FilteredAccess
  | .unit, a => a
  | .withC c, a => a.and_with c
  | .withoutC c, a => a.and_without c
  | .dataMatch d, a =>
      let data_access := d.update_component_access FilteredAccess.empty
      data_access.withouts.foldl FilteredAccess.and_without
        (data_access.withs.foldl FilteredAccess.and_with a)
  | .pair l r, a => r.update_component_access (l.update_component_access a)

/-- Model of `QueryFilter::matches_component_set`. The `dataMatch` case
returns the result of the wrapped data's `matches_component_set`, exactly
as `DataMatch`'s implementation delegates to `D`. -/
def QueryFilter.matches_component_set : QueryFilter → (Nat → Bool) → Bool
  | .unit, _ => true
  | .withC c, has => has c
  | .withoutC c, has => !(has c)
  | .dataMatch d, has => d.matches_component_set has
  | .pair l r, has => l.matches_component_set has && r.matches_component_set has

/-- Folding `and_with` over a list appends exactly that list to the
presence facts. -/
theorem foldl_and_with (l : List Nat) (a : FilteredAccess) :
    l.foldl FilteredAccess.and_with a = { a with withs := a.withs ++ l } := by
  induction l generalizing a with
  | nil => simp
  | cons c cs ih =>
      simp only [List.foldl_cons, ih, FilteredAccess.and_with, List.append_assoc,
        List.singleton_append]

/-- Folding `and_without` over a list appends exactly that list to the
absence facts. -/
theorem foldl_and_without (l : List Nat) (a : FilteredAccess) :
    l.foldl FilteredAccess.and_without a = { a with withouts := a.withouts ++ l } := by
  induction l generalizing a with
  | nil => simp
  | cons c cs ih =>
      simp only [List.foldl_cons, ih, FilteredAccess.and_without, List.append_assoc,
        List.singleton_append]

/-- Characterisation of the access a `QueryData` declares on top of an
arbitrary base access. -/
theorem QueryData.update_component_access_eq (d : QueryData) (a : FilteredAccess) :
    d.update_component_access a =
      { a with
        reads := a.reads ++ d.readsList,
        writes := a.writes ++ d.writesList,
        withs := a.withs ++ d.withsList } := by
  induction d generalizing a with
  | entity => simp [update_component_access, readsList, writesList, withsList]
  | read c => simp [update_component_access, readsList, writesList, withsList,
      FilteredAccess.add_read]
  | write c => simp [update_component_access, readsList, writesList, withsList,
      FilteredAccess.add_write]
  | pair l r ihl ihr =>
      simp [update_component_access, readsList, writesList, withsList, ihl, ihr,
        List.append_assoc]

/-- Every component a `QueryData` reads or writes carries a presence fact in
the data's own declaration. -/
theorem QueryData.mem_withsList_of_claim (d : QueryData) (c : Nat)
    (h : c ∈ d.readsList ∨ c ∈ d.writesList) : c ∈ d.withsList := by
  induction d with
  | entity => simp [readsList, writesList] at h
  | read c0 =>
      simp [readsList, writesList] at h
      simp [withsList, h]
  | write c0 =>
      simp [readsList, writesList] at h
      simp [withsList, h]
  | pair l r ihl ihr =>
      simp only [readsList, writesList, List.mem_append] at h
      simp only [withsList, List.mem_append]
      rcases h with (h | h) | (h | h)
      · exact Or.inl (ihl (Or.inl h))
      · exact Or.inr (ihr (Or.inl h))
      · exact Or.inl (ihl (Or.inr h))
      · exact Or.inr (ihr (Or.inr h))

/-- C1: Existence projection grants no access. `DataMatch<D>` contributes to
the combined access exactly the presence and absence facts of `D`'s declared
access and leaves the read and write claims untouched; every component `D`
reads or writes appears among the contributed presence facts. -/
theorem dataMatch_projects_existence_only (d : QueryData) (a : FilteredAccess) :
    (QueryFilter.dataMatch d).update_component_access a =
      { a with
        withs := a.withs ++ (d.update_component_access FilteredAccess.empty).withs,
        withouts :=
          a.withouts ++ (d.update_component_access FilteredAccess.empty).withouts } ∧
    ((QueryFilter.dataMatch d).update_component_access a).reads = a.reads ∧
    ((QueryFilter.dataMatch d).update_component_access a).writes = a.writes ∧
    (∀ c : Nat, c ∈ d.readsList ∨ c ∈ d.writesList →
      c ∈ ((QueryFilter.dataMatch d).update_component_access a).withs) := by
  have hmain : (QueryFilter.dataMatch d).update_component_access a =
      { a with
        withs := a.withs ++ (d.update_component_access FilteredAccess.empty).withs,
        withouts :=
          a.withouts ++ (d.update_component_access FilteredAccess.empty).withouts } := by
    simp only [QueryFilter.update_component_access, foldl_and_with, foldl_and_without]
  refine ⟨hmain, ?_, ?_, ?_⟩
  · rw [hmain]
  · rw [hmain]
  · intro c hc
    rw [hmain]
    simp only [List.mem_append]
    right
    rw [QueryData.update_component_access_eq]
    simpa [FilteredAccess.empty] using d.mem_withsList_of_claim c hc

/-- The keep-only-existence-facts transformation that
`DataMatch::update_component_access` applies to the wrapped data's access,
here as a standalone function on access declarations: fold the source's
presence facts and then its absence facts into a fresh default access. -/
def projectAccess (a : FilteredAccess) : FilteredAccess :=
  a.withouts.foldl FilteredAccess.and_without
    (a.withs.foldl FilteredAccess.and_with FilteredAccess.empty)

/-- C9: Existence projection is idempotent — projecting the projection of an
access declaration yields the same filter facts as projecting it once. -/
theorem projectAccess_idempotent (a : FilteredAccess) :
    projectAccess (projectAccess a) = projectAccess a := by
  simp [projectAccess, foldl_and_with, foldl_and_without, FilteredAccess.empty]

/-!
World model. The record store is external to the repository; the spec
specifies it as "fetch component C for entity E" and "iterate entities
matching requirement set R". An entity's record maps component ids to
values (natural numbers suffice for every component this crate stores);
a world is an association list from entity ids to records, in spawn order.
-/

/-- Modelled from the spec: one entity's components, as an association list
from component id to stored value. -/
abbrev Record := List (Nat × Nat)

/-- Whether the record holds a component of the given type. -/
def Record.hasComp (r : Record) (c : Nat) : Bool :=
  (List.lookup c r).isSome

/-- Modelled from the spec: the record store, an association list from
entity id to record, in spawn order. -/
abbrev World := List (Nat × Record)

/-- Record of the given entity, when it exists. -/
def World.getEntity (w : World) (e : Nat) : Option Record :=
  List.lookup e w

/-- Whether the entity currently exists in the world. -/
def World.contains (w : World) (e : Nat) : Bool :=
  (w.getEntity e).isSome

/-- Value of one component of one entity, when present. -/
def World.getComp (w : World) (e c : Nat) : Option Nat :=
  (w.getEntity e).bind (fun r => List.lookup c r)

/-- Updating a component's value in a record; only existing components are
updated, mirroring mutation through a fetched `&mut C`. -/
def Record.setComp (r : Record) (c v : Nat) : Record :=
  r.map (fun p => if p.1 = c then (c, v) else p)

/-- Updating a component's value of one entity in the world. -/
def World.setComp (w : World) (e c v : Nat) : World :=
  w.map (fun p => if p.1 = e then (e, Record.setComp p.2 c v) else p)

/-- Next free entity id, as the store allocates ids for `spawn`. -/
def World.freshId (w : World) : Nat :=
  (w.map Prod.fst).foldl (fun a b => max a (b + 1)) 0

/-- Model of `World::spawn`: append a new entity holding the record. -/
def World.spawn (w : World) (r : Record) : World :=
  w ++ [(w.freshId, r)]

/-- Model of `World::despawn`: remove the entity with the given id. -/
def World.despawn (w : World) (e : Nat) : World :=
  w.filter (fun p => p.1 ≠ e)

/-- Whether the entity matches a query with the given data and filter: it
exists and its component set satisfies both `matches_component_set`s.
This is `Query::get_mut` succeeding, and membership in `Query::iter_mut`. -/
def matchesQuery (d : QueryData) (f : QueryFilter) (e : Nat) (w : World) : Bool :=
  match w.getEntity e with
  | some r => d.matches_component_set r.hasComp && f.matches_component_set r.hasComp
  | none => false

/-!
Entity systems. The trait `EntitySystem` (lib.rs) declares `Data`, `Filter`,
`Param`, `In`, `Out` and `run(&mut self, input, data_value, param_value)`.
The embedding makes the mutable system-plus-param state explicit as a value
of type σ threaded through `run`, gives `run` the entity id and the world in
place of the already-fetched `QueryItem` and `SystemParamItem` (leaf systems
read and write their declared components of that entity themselves), and
returns `none` where the Rust code would panic. `params` lists the
`Query`-shaped system params the system holds (`SQuery<D, F>` in `Param`),
which contribute to the system's combined access but not to iteration.
-/

/-- Model of the `EntitySystem` trait of lib.rs. -/
structure EntitySystem (σ In Out : Type) where
  data : QueryData
  filter : QueryFilter
  params : List (QueryData × QueryFilter)
  run : σ → In → Nat → World → Option (Out × World × σ)

/-- Contract of `EntitySystem::run`: it does not fail (panic) when the
entity matches the system's declared data and filter. -/
def TotalOnMatch {σ In Out : Type} (S : EntitySystem σ In Out) : Prop :=
  ∀ (s : σ) (i : In) (e : Nat) (w : World),
    matchesQuery S.data S.filter e w = true → (S.run s i e w).isSome

/-- Two worlds with the same entities and the same component sets on each
entity; component values may differ. -/
def sameShape (w w' : World) : Prop :=
  (∀ e : Nat, (w.getEntity e).isSome = (w'.getEntity e).isSome) ∧
  (∀ (e : Nat) (r r' : Record), w.getEntity e = some r → w'.getEntity e = some r' →
    ∀ c : Nat, r.hasComp c = r'.hasComp c)

/-- Contract of `EntitySystem::run`: within one invocation it can mutate
component values but not spawn, despawn, or change component sets; a system
running over fetched query items has no structural access to the world. -/
def ShapePreserving {σ In Out : Type} (S : EntitySystem σ In Out) : Prop :=
  ∀ (s : σ) (i : In) (e : Nat) (w : World) (o : Out) (w' : World) (s' : σ),
    S.run s i e w = some (o, w', s') → sameShape w w'

theorem sameShape_refl (w : World) : sameShape w w := by
  refine ⟨fun _ => rfl, fun e r r' h h' c => ?_⟩
  rw [h] at h'
  cases h'
  rfl

/-- Data and filter matching depend only on the component set. -/
theorem QueryData.matches_data_congr (d : QueryData) (has has' : Nat → Bool)
    (h : ∀ c, has c = has' c) :
    d.matches_component_set has = d.matches_component_set has' := by
  induction d with
  | entity => rfl
  | read c => exact h c
  | write c => exact h c
  | pair l r ihl ihr => simp [matches_component_set, ihl, ihr]

/-- Filter matching depends only on the component set. -/
theorem QueryFilter.matches_filter_congr (f : QueryFilter) (has has' : Nat → Bool)
    (h : ∀ c, has c = has' c) :
    f.matches_component_set has = f.matches_component_set has' := by
  induction f with
  | unit => rfl
  | withC c => exact h c
  | withoutC c => simp [matches_component_set, h c]
  | dataMatch d => exact d.matches_data_congr has has' h
  | pair l r ihl ihr => simp [matches_component_set, ihl, ihr]

/-- Matching is stable under shape-preserving world mutation. -/
theorem matchesQuery_of_sameShape (d : QueryData) (f : QueryFilter) (e : Nat)
    (w w' : World) (h : sameShape w w') :
    matchesQuery d f e w = matchesQuery d f e w' := by
  obtain ⟨hsome, hcomp⟩ := h
  cases hw : w.getEntity e with
  | none =>
      have hx := hsome e
      rw [hw] at hx
      cases hw' : w'.getEntity e with
      | none => simp [matchesQuery, hw, hw']
      | some r' => rw [hw'] at hx; simp at hx
  | some r =>
      have hx := hsome e
      rw [hw] at hx
      cases hw' : w'.getEntity e with
      | none => rw [hw'] at hx; simp at hx
      | some r' =>
          have hc := hcomp e r r' hw hw'
          simp only [matchesQuery, hw, hw',
            QueryData.matches_data_congr d r.hasComp r'.hasComp hc,
            QueryFilter.matches_filter_congr f r.hasComp r'.hasComp hc]

/-!
Composition operators from implementors.rs.
-/

/-- Model of the `ESPipeFilter<A, B>` type alias of implementors.rs: the
tuple `(DataMatch<A::Data>, A::Filter, DataMatch<B::Data>, B::Filter)`. -/
def ESPipeFilter {σa σb In Mid Out : Type}
    (A : EntitySystem σa In Mid) (B : EntitySystem σb Mid Out) : QueryFilter :=
  .pair (.dataMatch A.data) (.pair A.filter (.pair (.dataMatch B.data) B.filter))

/-- Model of `PipeEntitySystem::run`: fetch the entity through the query
`SQuery<A::Data, ESPipeFilter<A, B>>` and unwrap (a failed fetch is a
panic, `none`), run `A` with the provided input, then fetch through
`SQuery<B::Data, ESPipeFilter<A, B>>`, unwrap, and run `B` on `A`'s
output; the pair state threads `&mut self.0` and `&mut self.1`. -/
def PipeEntitySystem.runImpl {σa σb In Mid Out : Type}
    (A : EntitySystem σa In Mid) (B : EntitySystem σb Mid Out) :
    σa × σb → In → Nat → World → Option (Out × World × (σa × σb)) :=
  fun s input e w =>
    if matchesQuery A.data (ESPipeFilter A B) e w then
      match A.run s.1 input e w with
      | none => none
      | some (result, w1, sa) =>
        if matchesQuery B.data (ESPipeFilter A B) e w1 then
          match B.run s.2 result e w1 with
          | none => none
          | some (out, w2, sb) => some (out, w2, (sa, sb))
        else none
    else none

/-- Model of `PipeEntitySystem<A, B>` of implementors.rs: `Data = Entity`,
`Filter = ESPipeFilter<A, B>`, and the two queries of its `ParamSet`
among its query params. -/
def PipeEntitySystem {σa σb In Mid Out : Type}
    (A : EntitySystem σa In Mid) (B : EntitySystem σb Mid Out) :
    EntitySystem (σa × σb) In Out :=
  { data := .entity
    filter := ESPipeFilter A B
    params := ((A.data, ESPipeFilter A B) :: A.params)
      ++ ((B.data, ESPipeFilter A B) :: B.params)
    run := PipeEntitySystem.runImpl A B }

/-- Model of `OptionalEntitySystem<T>` of implementors.rs: `Data = Entity`,
`Filter = ()`, `Param = (SQuery<T::Data, T::Filter>, T::Param)`; `run`
resolves `T`'s data requirement through `query.get_mut(entity)` and either
runs `T` (wrapping its output in `Ok`) or returns `Err(input)`. -/
def OptionalEntitySystem {σ In Out : Type} (T : EntitySystem σ In Out) :
    EntitySystem σ In (Except In Out) :=
  { data := .entity
    filter := .unit
    params := (T.data, T.filter) :: T.params
    run := fun s input e w =>
      if matchesQuery T.data T.filter e w then
        (T.run s input e w).map (fun r => (Except.ok r.1, r.2.1, r.2.2))
      else
        some (Except.error input, w, s) }

/-- Model of `AdapterEntitySystem<T, Func>` of implementors.rs with the
`Adapt` implementation for `FnMut(S::Out) -> Out` closures: same `Data`,
`Filter` and `Param` as `T`; `run` calls `func(T::run(input, ...))`. -/
def AdapterEntitySystem {σ In Out Out2 : Type}
    (T : EntitySystem σ In Out) (func : Out → Out2) : EntitySystem σ In Out2 :=
  { data := T.data
    filter := T.filter
    params := T.params
    run := fun s input e w =>
      (T.run s input e w).map (fun r => (func r.1, r.2.1, r.2.2)) }

/-- Access declaration of one query, data first then filter, exactly as
`QueryState::new` builds it. -/
def queryAccess (d : QueryData) (f : QueryFilter) : FilteredAccess :=
  f.update_component_access (d.update_component_access FilteredAccess.empty)

/-- Read claims a system declares across its iteration query and its query
params, in declaration order. -/
def EntitySystem.combinedReads {σ In Out : Type} (S : EntitySystem σ In Out) : List Nat :=
  ((queryAccess S.data S.filter :: S.params.map (fun p => queryAccess p.1 p.2)).map
    FilteredAccess.reads).flatten

/-- Write claims a system declares across its iteration query and its query
params, in declaration order. -/
def EntitySystem.combinedWrites {σ In Out : Type} (S : EntitySystem σ In Out) : List Nat :=
  ((queryAccess S.data S.filter :: S.params.map (fun p => queryAccess p.1 p.2)).map
    FilteredAccess.writes).flatten

/-- C2: Pipe eligibility is the intersection of the children's eligibility —
an entity matches the pipe's declared `Data` and `Filter` exactly when it
matches `A`'s data and filter and matches `B`'s data and filter. -/
theorem pipe_eligibility_is_intersection {σa σb In Mid Out : Type}
    (A : EntitySystem σa In Mid) (B : EntitySystem σb Mid Out) (e : Nat) (w : World) :
    matchesQuery (PipeEntitySystem A B).data (PipeEntitySystem A B).filter e w =
      (matchesQuery A.data A.filter e w && matchesQuery B.data B.filter e w) := by
  cases hw : w.getEntity e with
  | none => simp [matchesQuery, hw]
  | some r =>
      simp only [matchesQuery, hw, PipeEntitySystem, ESPipeFilter,
        QueryData.matches_component_set, QueryFilter.matches_component_set]
      cases A.data.matches_component_set r.hasComp <;>
        cases A.filter.matches_component_set r.hasComp <;>
        cases B.data.matches_component_set r.hasComp <;>
        cases B.filter.matches_component_set r.hasComp <;> rfl

/-- An entity matching the pipe's declaration matches each child's data with
the pipe filter, and each child's own data and filter. -/
theorem pipe_match_elim {σa σb In Mid Out : Type}
    (A : EntitySystem σa In Mid) (B : EntitySystem σb Mid Out) (e : Nat) (w : World)
    (h : matchesQuery (PipeEntitySystem A B).data (PipeEntitySystem A B).filter e w = true) :
    matchesQuery A.data (ESPipeFilter A B) e w = true ∧
    matchesQuery B.data (ESPipeFilter A B) e w = true ∧
    matchesQuery A.data A.filter e w = true ∧
    matchesQuery B.data B.filter e w = true := by
  cases hw : w.getEntity e with
  | none => simp [matchesQuery, hw] at h
  | some r =>
      simp only [matchesQuery, hw, PipeEntitySystem, ESPipeFilter,
        QueryData.matches_component_set, QueryFilter.matches_component_set,
        Bool.true_and, Bool.and_eq_true] at h
      obtain ⟨had, haf, hbd, hbf⟩ := h
      refine ⟨?_, ?_, ?_, ?_⟩ <;>
        simp [matchesQuery, hw, ESPipeFilter, QueryData.matches_component_set,
          QueryFilter.matches_component_set, had, haf, hbd, hbf]

/-- C3: Pipe dataflow and order. On a matching entity, `PipeEntitySystem`'s
`run` equals running `A` first with the provided input, then running `B` on
the world `A` produced with `A`'s output as input, returning `B`'s output;
the `unwrap` branches contribute nothing. `A`'s run preserves the world's
shape, as mutation through fetched query items cannot restructure entities. -/
theorem pipe_runs_A_then_B {σa σb In Mid Out : Type}
    (A : EntitySystem σa In Mid) (B : EntitySystem σb Mid Out)
    (hA : ShapePreserving A) (s : σa × σb) (input : In) (e : Nat) (w : World)
    (h : matchesQuery (PipeEntitySystem A B).data (PipeEntitySystem A B).filter e w = true) :
    (PipeEntitySystem A B).run s input e w =
      (A.run s.1 input e w).bind (fun ra =>
        (B.run s.2 ra.1 e ra.2.1).map (fun rb => (rb.1, rb.2.1, (ra.2.2, rb.2.2)))) := by
  obtain ⟨h1, h2, h3, h4⟩ := pipe_match_elim A B e w h
  show PipeEntitySystem.runImpl A B s input e w = _
  unfold PipeEntitySystem.runImpl
  rw [if_pos h1]
  cases hr : A.run s.1 input e w with
  | none => rfl
  | some ra =>
      obtain ⟨mid, w1, sa⟩ := ra
      have hB : matchesQuery B.data (ESPipeFilter A B) e w1 = true := by
        rw [← matchesQuery_of_sameShape B.data (ESPipeFilter A B) e w w1
          (hA s.1 input e w mid w1 sa hr)]
        exact h2
      cases hrb : B.run s.2 mid e w1 with
      | none => simp [hB, hrb]
      | some rb => obtain ⟨out, w2, sb⟩ := rb; simp [hB, hrb]

/-- C5: Invoke cannot fail for matching entities. For an entity satisfying
the pipe's declared data and filter, the first internal query fetch
succeeds, the second succeeds on the world `A` produced, and — the children
honouring the `EntitySystem` contract — the whole `run` returns a value, so
the `unwrap` panic branches are unreachable. -/
theorem pipe_run_never_panics {σa σb In Mid Out : Type}
    (A : EntitySystem σa In Mid) (B : EntitySystem σb Mid Out)
    (hA : ShapePreserving A) (hTA : TotalOnMatch A) (hTB : TotalOnMatch B)
    (s : σa × σb) (input : In) (e : Nat) (w : World)
    (h : matchesQuery (PipeEntitySystem A B).data (PipeEntitySystem A B).filter e w = true) :
    matchesQuery A.data (ESPipeFilter A B) e w = true ∧
    (∀ (mid : Mid) (w1 : World) (sa : σa), A.run s.1 input e w = some (mid, w1, sa) →
      matchesQuery B.data (ESPipeFilter A B) e w1 = true) ∧
    ((PipeEntitySystem A B).run s input e w).isSome = true := by
  obtain ⟨h1, h2, h3, h4⟩ := pipe_match_elim A B e w h
  refine ⟨h1, ?_, ?_⟩
  · intro mid w1 sa hr
    rw [← matchesQuery_of_sameShape B.data (ESPipeFilter A B) e w w1
      (hA s.1 input e w mid w1 sa hr)]
    exact h2
  · obtain ⟨⟨mid, w1, sa⟩, hr⟩ := Option.isSome_iff_exists.mp (hTA s.1 input e w h3)
    have hshape := hA s.1 input e w mid w1 sa hr
    have hB1 : matchesQuery B.data B.filter e w1 = true := by
      rw [← matchesQuery_of_sameShape B.data B.filter e w w1 hshape]
      exact h4
    obtain ⟨⟨out, w2, sb⟩, hrb⟩ := Option.isSome_iff_exists.mp (hTB s.2 mid e w1 hB1)
    have hB2 : matchesQuery B.data (ESPipeFilter A B) e w1 = true := by
      rw [← matchesQuery_of_sameShape B.data (ESPipeFilter A B) e w w1 hshape]
      exact h2
    show (PipeEntitySystem.runImpl A B s input e w).isSome = true
    simp [PipeEntitySystem.runImpl, h1, hr, hB2, hrb]

/-- A concrete entity system usable as either pipe child: it matches every
entity, leaves the world unchanged and returns its input plus one. -/
def succES : EntitySystem Unit Nat Nat :=
  { data := .entity
    filter := .unit
    params := []
    run := fun s i _ w => some (i + 1, w, s) }

theorem succES_shapePreserving : ShapePreserving succES := by
  intro s i e w o w' s' h
  simp only [succES, Option.some.injEq, Prod.mk.injEq] at h
  obtain ⟨-, hw, -⟩ := h
  rw [← hw]
  exact sameShape_refl w

theorem succES_total : TotalOnMatch succES := by
  intro s i e w _
  rfl

/-- A one-entity world for exercising the pipe theorems concretely. -/
def pipeWitnessWorld : World := [(0, [(0, 5)])]

/-- Witness for C3 at concrete systems, entity and world. -/
theorem pipe_runs_A_then_B_witness :
    (PipeEntitySystem succES succES).run ((), ()) 3 0 pipeWitnessWorld =
      (succES.run () 3 0 pipeWitnessWorld).bind (fun ra =>
        (succES.run () ra.1 0 ra.2.1).map (fun rb => (rb.1, rb.2.1, (ra.2.2, rb.2.2)))) :=
  pipe_runs_A_then_B succES succES succES_shapePreserving ((), ()) 3 0
    pipeWitnessWorld (by decide)

/-- Witness for C5 at concrete systems, entity and world. -/
theorem pipe_run_never_panics_witness :
    ((PipeEntitySystem succES succES).run ((), ()) 3 0 pipeWitnessWorld).isSome = true :=
  (pipe_run_never_panics succES succES succES_shapePreserving succES_total succES_total
    ((), ()) 3 0 pipeWitnessWorld (by decide)).2.2

/-- C4: Optional semantics. `OptionalEntitySystem<T>` declares `Data =
Entity` and an empty filter, so it matches every existing entity, while its
query param reproduces `T`'s data requirement, leaving the combined read and
write claims exactly `T`'s. Its `run` returns `Ok` of `T`'s output when the
entity satisfies `T`'s data and filter, returns `Err` carrying the original
input unchanged when it does not, and returns a value (no panic) whenever
`T` honours the `EntitySystem` contract. -/
theorem optional_semantics {σ In Out : Type} (T : EntitySystem σ In Out)
    (s : σ) (input : In) (e : Nat) (w : World) :
    (OptionalEntitySystem T).data = QueryData.entity ∧
    (OptionalEntitySystem T).filter = QueryFilter.unit ∧
    (w.contains e = true →
      matchesQuery (OptionalEntitySystem T).data (OptionalEntitySystem T).filter e w = true) ∧
    (OptionalEntitySystem T).combinedReads = T.combinedReads ∧
    (OptionalEntitySystem T).combinedWrites = T.combinedWrites ∧
    (matchesQuery T.data T.filter e w = true →
      (OptionalEntitySystem T).run s input e w =
        (T.run s input e w).map (fun r => (Except.ok r.1, r.2.1, r.2.2))) ∧
    (matchesQuery T.data T.filter e w = false →
      (OptionalEntitySystem T).run s input e w = some (Except.error input, w, s)) ∧
    (TotalOnMatch T → ((OptionalEntitySystem T).run s input e w).isSome = true) := by
  refine ⟨rfl, rfl, ?_, ?_, ?_, ?_, ?_, ?_⟩
  · intro hc
    simp only [World.contains, Option.isSome_iff_exists] at hc
    obtain ⟨r, hr⟩ := hc
    simp [matchesQuery, OptionalEntitySystem, hr, QueryData.matches_component_set,
      QueryFilter.matches_component_set]
  · simp [EntitySystem.combinedReads, OptionalEntitySystem, queryAccess,
      QueryData.update_component_access, QueryFilter.update_component_access,
      FilteredAccess.empty]
  · simp [EntitySystem.combinedWrites, OptionalEntitySystem, queryAccess,
      QueryData.update_component_access, QueryFilter.update_component_access,
      FilteredAccess.empty]
  · intro hm
    simp [OptionalEntitySystem, hm]
  · intro hm
    simp [OptionalEntitySystem, hm]
  · intro hT
    cases hm : matchesQuery T.data T.filter e w with
    | false => simp [OptionalEntitySystem, hm]
    | true =>
        obtain ⟨⟨o, w', s'⟩, hr⟩ := Option.isSome_iff_exists.mp (hT s input e w hm)
        simp [OptionalEntitySystem, hm, hr]

/-- A world whose single entity lacks component 1, for exercising the
optional system's failure branch concretely. -/
def optionalWitnessWorld : World := [(0, [(0, 5)])]

/-- A concrete entity system requiring component 1, which
`optionalWitnessWorld`'s entity is missing. -/
def needsOneES : EntitySystem Unit Nat Nat :=
  { data := .write 1
    filter := .unit
    params := []
    run := fun s i e w =>
      match w.getComp e 1 with
      | some v => some (v + i, w.setComp e 1 (v + i), s)
      | none => none }

/-- Witness for C4: the wrapped system's requirement fails on the entity, so
the optional system returns the tagged failure carrying the original input. -/
theorem optional_semantics_witness :
    (OptionalEntitySystem needsOneES).run () 7 0 optionalWitnessWorld =
      some (Except.error 7, optionalWitnessWorld, ()) :=
  (optional_semantics needsOneES () 7 0 optionalWitnessWorld).2.2.2.2.2.2.1 (by decide)

/-- C8: Adapter preserves requirements and only reshapes output.
`AdapterEntitySystem<T, Func>` declares exactly `T`'s data, filter and query
params — hence matches exactly the entities `T` matches — and its `run`
runs `T` exactly once with the given input, returning `func` applied to
`T`'s output with `T`'s world and state effects untouched. -/
theorem adapter_preserves_requirements {σ In Out Out2 : Type}
    (T : EntitySystem σ In Out) (func : Out → Out2) :
    (AdapterEntitySystem T func).data = T.data ∧
    (AdapterEntitySystem T func).filter = T.filter ∧
    (AdapterEntitySystem T func).params = T.params ∧
    (∀ (e : Nat) (w : World),
      matchesQuery (AdapterEntitySystem T func).data (AdapterEntitySystem T func).filter e w =
        matchesQuery T.data T.filter e w) ∧
    (∀ (s : σ) (input : In) (e : Nat) (w : World),
      (AdapterEntitySystem T func).run s input e w =
        (T.run s input e w).map (fun r => (func r.1, r.2.1, r.2.2))) :=
  ⟨rfl, rfl, rfl, fun _ _ => rfl, fun _ _ _ _ => rfl⟩

/-!
Execution drivers from into_entity_system.rs and into_system.rs. The system
produced by `into_system_with_output` runs `query.iter_mut()` over the
entities matching the entity system's `Data` and `Filter` and folds each
output into an accumulator seeded at the output type's default; the
system produced by `into_system` runs the same loop discarding outputs.
The single `&mut entity_system` captured by the closure and the single
`ParamSet` state are modelled by the one σ value threaded through the loop;
the tick's input is cloned for each invocation, so every invocation
receives the same `input` value.
-/

/-- Entities yielded by `query.iter_mut()` for the system's data and filter,
in store order. -/
def matchingEntities {σ In Out : Type} (S : EntitySystem σ In Out) (w : World) : List Nat :=
  (w.map Prod.fst).filter (fun e => matchesQuery S.data S.filter e w)

/-- The fold loop of `into_system_with_output`: for each entity, run the
entity system with a clone of the input, then `func(&mut output, result)`;
`none` propagates a panic of the entity system. -/
def foldEntitiesLoop {σ In Out T : Type} (S : EntitySystem σ In Out)
    (func : T → Out → T) (input : In) :
    List Nat → σ → World → T → Option (T × World × σ)
  | [], s, w, acc => some (acc, w, s)
  | e :: es, s, w, acc =>
      match S.run s input e w with
      | none => none
      | some (o, w', s') => foldEntitiesLoop S func input es s' w' (func acc o)

/-- Model of `IntoEntitySystem::into_system_with_output`: seed the output at
the accumulator type's default value and fold over the matching entities. -/
def into_system_with_output {σ In Out T : Type} [Inhabited T]
    (S : EntitySystem σ In Out) (func : T → Out → T) (input : In)
    (s₀ : σ) (w : World) : Option (T × World × σ) :=
  foldEntitiesLoop S func input (matchingEntities S w) s₀ w default

/-- The loop of `into_system` (and of `EntitySystemSystemParamFunction::run`
in into_system.rs): run the entity system for each matching entity,
discarding the unit outputs. -/
def runEachLoop {σ In : Type} (S : EntitySystem σ In Unit) (input : In) :
    List Nat → σ → World → Option (World × σ)
  | [], s, w => some (w, s)
  | e :: es, s, w =>
      match S.run s input e w with
      | none => none
      | some (_, w', s') => runEachLoop S input es s' w'

/-- Model of `EntitySystemIntoSystem::into_system`. -/
def into_system {σ In : Type} (S : EntitySystem σ In Unit) (input : In)
    (s₀ : σ) (w : World) : Option (World × σ) :=
  runEachLoop S input (matchingEntities S w) s₀ w

/-- Running the entity system once per listed entity, collecting the outputs
in order while threading world and state. -/
def runSequence {σ In Out : Type} (S : EntitySystem σ In Out) (input : In) :
    List Nat → σ → World → Option (List Out × World × σ)
  | [], s, w => some ([], w, s)
  | e :: es, s, w =>
      match S.run s input e w with
      | none => none
      | some (o, w', s') =>
          (runSequence S input es s' w').map (fun r => (o :: r.1, r.2.1, r.2.2))

/-- An entity id is a key of the world exactly when the entity exists. -/
theorem World.contains_iff_mem_keys (w : World) (e : Nat) :
    w.contains e = true ↔ e ∈ w.map Prod.fst := by
  induction w with
  | nil => simp [World.contains, World.getEntity]
  | cons p t ih =>
      obtain ⟨a, r⟩ := p
      by_cases he : e = a
      · subst he
        simp [World.contains, World.getEntity, List.lookup]
      · have hb : (e == a) = false := beq_eq_false_iff_ne.mpr he
        simp only [World.contains, World.getEntity] at ih ⊢
        rw [List.map_cons, List.mem_cons, List.lookup, hb, ih]
        constructor
        · exact Or.inr
        · rintro (h | h)
          · exact absurd h he
          · exact h

/-- The fold loop is the sequence of per-entity runs folded from the seed. -/
theorem foldEntitiesLoop_eq_runSequence {σ In Out T : Type}
    (S : EntitySystem σ In Out) (func : T → Out → T) (input : In)
    (l : List Nat) (s : σ) (w : World) (acc : T) :
    foldEntitiesLoop S func input l s w acc =
      (runSequence S input l s w).map (fun r => (r.1.foldl func acc, r.2.1, r.2.2)) := by
  induction l generalizing s w acc with
  | nil => rfl
  | cons e es ih =>
      cases hr : S.run s input e w with
      | none => simp [foldEntitiesLoop, runSequence, hr]
      | some r =>
          obtain ⟨o, w', s'⟩ := r
          simp only [foldEntitiesLoop, runSequence, hr]
          rw [ih s' w' (func acc o)]
          cases hs : runSequence S input es s' w' with
          | none => rfl
          | some rs => simp

/-- C6: Driver fold contract. The system produced by
`into_system_with_output` iterates exactly the entities matching the entity
system's data and filter (each once when ids are unique), seeds the
accumulator at the default value — which is the output when no entity
matches — runs the entity system per entity with the run's input, and folds
the outputs in iteration order. -/
theorem into_system_with_output_fold {σ In Out T : Type} [Inhabited T]
    (S : EntitySystem σ In Out) (func : T → Out → T) (input : In)
    (s₀ : σ) (w : World) (hw : (w.map Prod.fst).Nodup) :
    (∀ e : Nat, e ∈ matchingEntities S w ↔
      (w.contains e = true ∧ matchesQuery S.data S.filter e w = true)) ∧
    (matchingEntities S w).Nodup ∧
    into_system_with_output S func input s₀ w =
      (runSequence S input (matchingEntities S w) s₀ w).map
        (fun r => (r.1.foldl func (default : T), r.2.1, r.2.2)) ∧
    (matchingEntities S w = [] →
      into_system_with_output S func input s₀ w = some (default, w, s₀)) := by
  refine ⟨?_, ?_, ?_, ?_⟩
  · intro e
    simp [matchingEntities, List.mem_filter, World.contains_iff_mem_keys]
  · exact hw.filter _
  · exact foldEntitiesLoop_eq_runSequence S func input (matchingEntities S w) s₀ w default
  · intro hempty
    simp [into_system_with_output, hempty, foldEntitiesLoop]

/-- Witness for C6 at a concrete system, input, seed and world. -/
theorem into_system_with_output_fold_witness :
    into_system_with_output succES (fun acc o => acc + o) 3 () pipeWitnessWorld =
      (runSequence succES 3 (matchingEntities succES pipeWitnessWorld) () pipeWitnessWorld).map
        (fun r => (r.1.foldl (fun acc o => acc + o) (default : Nat), r.2.1, r.2.2)) :=
  (into_system_with_output_fold succES (fun acc o => acc + o) 3 () pipeWitnessWorld
    (by decide)).2.2.1

/-!
The counter regression fixture from the `entity_system_test` in lib.rs.
-/

/-- Component id of the `Count` component of the test. -/
def Count : Nat := 0

/-- Model of the `increment_count` entity system of the test: fetch
`&mut Count` for the entity, increment it, and return the new value. -/
def increment_count : EntitySystem Unit Unit Nat :=
  { data := .write Count
    filter := .unit
    params := []
    run := fun s _ e w =>
      match w.getComp e Count with
      | some v => some (v + 1, w.setComp e Count (v + 1), s)
      | none => none }

/-- One run of the system registered in the test:
`increment_count.into_system_with_output(|val, step| *val += step)`,
returning the summed output and the mutated world. -/
def runCountPass (w : World) : Option (Nat × World) :=
  (into_system_with_output increment_count (fun val step => val + step) () () w).map
    (fun r => (r.1, r.2.1))

/-- The world of the test after `spawn(Count(0))` and `spawn(Count(10))`;
the entity holding 10 has id 1. -/
def testWorld0 : World := [(0, [(Count, 0)]), (1, [(Count, 10)])]

/-- C7: Counter-fold regression fixture. Starting from entities holding
Count values 0 and 10, four runs — with an entity holding 20 spawned after
the second and the entity that held 11 (now 13) despawned after the third —
output 12, 14, 37 and 26 in that order. -/
theorem counter_fold_fixture :
    runCountPass testWorld0 =
      some (12, [(0, [(Count, 1)]), (1, [(Count, 11)])]) ∧
    runCountPass [(0, [(Count, 1)]), (1, [(Count, 11)])] =
      some (14, [(0, [(Count, 2)]), (1, [(Count, 12)])]) ∧
    World.spawn [(0, [(Count, 2)]), (1, [(Count, 12)])] [(Count, 20)] =
      [(0, [(Count, 2)]), (1, [(Count, 12)]), (2, [(Count, 20)])] ∧
    runCountPass [(0, [(Count, 2)]), (1, [(Count, 12)]), (2, [(Count, 20)])] =
      some (37, [(0, [(Count, 3)]), (1, [(Count, 13)]), (2, [(Count, 21)])]) ∧
    World.despawn [(0, [(Count, 3)]), (1, [(Count, 13)]), (2, [(Count, 21)])] 1 =
      [(0, [(Count, 3)]), (2, [(Count, 21)])] ∧
    runCountPass [(0, [(Count, 3)]), (2, [(Count, 21)])] =
      some (26, [(0, [(Count, 4)]), (2, [(Count, 22)])]) := by
  refine ⟨?_, ?_, ?_, ?_, ?_, ?_⟩ <;> decide

/-!
State sharing across entities within a pass. The closures built by
`into_system` and `into_system_with_output` capture one `entity_system`
value and one `ParamSet` state for the whole system; every per-entity
invocation in a pass receives that same state, modelled by the single σ
value the loops thread.
-/

/-- An entity system whose state counts invocations and whose output reveals
the state it was handed: run on entity k of a pass, it reports how many
entities were visited before k. -/
def stateCounterES : EntitySystem Nat Unit Nat :=
  { data := .entity
    filter := .unit
    params := []
    run := fun s _ _ w => some (s, w, s + 1) }

/-- A unit-output sibling of `stateCounterES` for the `into_system` driver. -/
def stateCounterUnitES : EntitySystem Nat Unit Unit :=
  { data := .entity
    filter := .unit
    params := []
    run := fun s _ _ w => some ((), w, s + 1) }

/-- With a trivial data and filter requirement, the driver iterates every
entity of the world. -/
theorem matchingEntities_trivial (d : QueryData) (f : QueryFilter) (w : World)
    (hd : d = .entity) (hf : f = .unit) :
    (w.map Prod.fst).filter (fun e => matchesQuery d f e w) = w.map Prod.fst := by
  subst hd hf
  apply List.filter_eq_self.mpr
  intro e he
  have hc : w.contains e = true := (World.contains_iff_mem_keys w e).mpr he
  simp only [World.contains, Option.isSome_iff_exists] at hc
  obtain ⟨r, hr⟩ := hc
  simp [matchesQuery, hr, QueryData.matches_component_set,
    QueryFilter.matches_component_set]

/-- The fold loop over the counter system: each invocation observes the
number of previously visited entities on top of the initial state. -/
theorem foldEntitiesLoop_stateCounter (l : List Nat) (s₀ : Nat) (w : World)
    (acc : List Nat) :
    foldEntitiesLoop stateCounterES (fun outs o => outs ++ [o]) () l s₀ w acc =
      some (acc ++ (List.range l.length).map (fun k => s₀ + k), w, s₀ + l.length) := by
  induction l generalizing s₀ acc with
  | nil => simp [foldEntitiesLoop]
  | cons e es ih =>
      have hrun : stateCounterES.run s₀ () e w = some (s₀, w, s₀ + 1) := rfl
      have h1 : (fun k => s₀ + k) ∘ Nat.succ = fun k => s₀ + 1 + k := by
        funext k
        simp only [Function.comp]
        omega
      simp only [foldEntitiesLoop, hrun]
      rw [ih (s₀ + 1) (acc ++ [s₀])]
      simp only [List.length_cons, List.range_succ_eq_map, List.map_cons, List.map_map,
        h1, Nat.add_zero, List.append_assoc, List.singleton_append]
      have h3 : s₀ + 1 + es.length = s₀ + (es.length + 1) := by omega
      rw [h3]

/-- The `into_system` loop over the unit counter system accumulates its
state across all visited entities. -/
theorem runEachLoop_stateCounterUnit (l : List Nat) (s₀ : Nat) (w : World) :
    runEachLoop stateCounterUnitES () l s₀ w = some (w, s₀ + l.length) := by
  induction l generalizing s₀ with
  | nil => simp [runEachLoop]
  | cons e es ih =>
      have hrun : stateCounterUnitES.run s₀ () e w = some ((), w, s₀ + 1) := rfl
      simp only [runEachLoop, hrun, ih (s₀ + 1), List.length_cons]
      have h3 : s₀ + 1 + es.length = s₀ + (es.length + 1) := by omega
      rw [h3]

/-- C10: State is shared across entities within a pass. In both driver
loops the state produced by the invocation on one entity is exactly the
state supplied to the rest of the pass — there is no per-entity state slot —
and, concretely, a system that counts invocations in its state observes,
on the k-th visited entity, the writes of all k previous visits: the run
built by `into_system_with_output` outputs the sequence s₀, s₀+1, … and
the one built by `into_system` ends the pass with its state advanced once
per entity. -/
theorem state_shared_across_pass :
    (∀ (σ In Out T : Type) (S : EntitySystem σ In Out) (func : T → Out → T)
      (input : In) (e : Nat) (es : List Nat) (s : σ) (w : World) (acc : T),
      foldEntitiesLoop S func input (e :: es) s w acc =
        (S.run s input e w).bind
          (fun r => foldEntitiesLoop S func input es r.2.2 r.2.1 (func acc r.1))) ∧
    (∀ (σ In : Type) (S : EntitySystem σ In Unit) (input : In)
      (e : Nat) (es : List Nat) (s : σ) (w : World),
      runEachLoop S input (e :: es) s w =
        (S.run s input e w).bind (fun r => runEachLoop S input es r.2.2 r.2.1)) ∧
    (∀ (s₀ : Nat) (w : World),
      into_system_with_output stateCounterES (fun outs o => outs ++ [o]) () s₀ w =
        some ((List.range w.length).map (fun k => s₀ + k), w, s₀ + w.length)) ∧
    (∀ (s₀ : Nat) (w : World),
      into_system stateCounterUnitES () s₀ w = some (w, s₀ + w.length)) := by
  refine ⟨?_, ?_, ?_, ?_⟩
  · intro σ In Out T S func input e es s w acc
    cases hr : S.run s input e w with
    | none => simp [foldEntitiesLoop, hr]
    | some r => obtain ⟨o, w', s'⟩ := r; simp [foldEntitiesLoop, hr]
  · intro σ In S input e es s w
    cases hr : S.run s input e w with
    | none => simp [runEachLoop, hr]
    | some r => obtain ⟨o, w', s'⟩ := r; simp [runEachLoop, hr]
  · intro s₀ w
    have hm : matchingEntities stateCounterES w = w.map Prod.fst :=
      matchingEntities_trivial stateCounterES.data stateCounterES.filter w rfl rfl
    show foldEntitiesLoop stateCounterES (fun outs o => outs ++ [o]) ()
      (matchingEntities stateCounterES w) s₀ w default = _
    rw [hm, foldEntitiesLoop_stateCounter (w.map Prod.fst) s₀ w default]
    simp only [List.length_map]
    rw [show (default : List Nat) = [] from rfl]
    simp
  · intro s₀ w
    have hm : matchingEntities stateCounterUnitES w = w.map Prod.fst :=
      matchingEntities_trivial stateCounterUnitES.data stateCounterUnitES.filter w rfl rfl
    show runEachLoop stateCounterUnitES () (matchingEntities stateCounterUnitES w) s₀ w = _
    rw [hm, runEachLoop_stateCounterUnit (w.map Prod.fst) s₀ w]
    simp [List.length_map]

/-- Witness for C1 at a concrete data requirement reading component 2 and
writing component 3: component 2 becomes a must-be-present fact. -/
theorem dataMatch_projects_existence_only_witness :
    2 ∈ ((QueryFilter.dataMatch (QueryData.pair (.read 2) (.write 3))).update_component_access
      FilteredAccess.empty).withs :=
  (dataMatch_projects_existence_only (QueryData.pair (.read 2) (.write 3))
    FilteredAccess.empty).2.2.2 2 (by decide)
